import Mathlib

/-!
Shallow embedding of the bflow data-access layer (`src/database.py`).

The Python class `Database` wraps an SQLite file.  Tables are modelled as
lists of row structures kept in insertion (rowid) order, and each table's
AUTOINCREMENT sequence is modelled by a `seq...` counter that starts at 1 and
is consumed only by actual inserts (SQLite does not consume an id for an
`INSERT OR IGNORE` that is ignored).

SQLite behaviours baked into the model (checked against the sqlite3 engine):
* `INSERT OR IGNORE` skips a row only when a uniqueness constraint would be
  violated.  `CATEGORY.name` is UNIQUE and `EXERCISE` carries
  `UNIQUE(category_id, name)` (SQLite accepts the source's missing comma
  before `UNIQUE` and the constraint takes effect).  `PARENT_PLAYER` has no
  uniqueness constraint beyond its integer primary key, so its
  `INSERT OR IGNORE` always inserts.
* The `CHECK (rating BETWEEN 1 AND 5)` constraint on `PLAYER_EXERCISE` is
  evaluated when an UPDATE writes the `rating` column of at least one row;
  a violating statement raises `IntegrityError` and the transaction is rolled
  back, so the store is unchanged.  A result-only update does not re-check an
  existing rating.
* The Python `sqlite3` driver leaves `PRAGMA foreign_keys` off, so the
  `ON DELETE` clauses are inert: deleting a player does not cascade.
* `with conn:` commits on success and rolls back on an exception, so an
  operation that raises leaves the store unchanged.  Accordingly every
  fallible operation returns `Except DBError ...`, and `.error` means the
  Python call raised with the store as before.

All Python `raise ValueError(msg)` sites are mapped to the error kind the
message denotes (invalid input, not-found, conflict); `sqlite3.IntegrityError`
is `integrityError` and a Python `TypeError` is `typeError`.
-/

/-- One row of the `PLAYER` table, fields in DDL order. -/
structure PlayerRow where
  id : Nat
  username : String
  password : String
  email : String
  name : String
  picture : Option String
  birthYear : Int
  country : String
  number : Int
  parent : Option String
  parentEmail : Option String
  parentPhone : Option String
  coach : Option String
  coachEmail : Option String
  coachPhone : Option String
  team : Option String
  shirtNumber : Option Int
  team_id : Option Nat
deriving DecidableEq, Repr

/-- One row of the `COACH` table. -/
structure CoachRow where
  id : Nat
  username : String
  password : String
  email : String
  name : String
  picture : Option String
  birthYear : Int
  country : String
  team : Option String
  team_id : Option Nat
deriving DecidableEq, Repr

/-- One row of the `PARENT` table. -/
structure ParentRow where
  id : Nat
  username : String
  password : String
  email : String
  name : String
  picture : Option String
  birthYear : Int
  country : String
  child_name : Option String
  child_email : Option String
deriving DecidableEq, Repr

/-- One row of the `TEAM` table. -/
structure TeamRow where
  id : Nat
  name : String
  coach_id : Nat
deriving DecidableEq, Repr

/-- One row of the `CATEGORY` table. -/
structure CategoryRow where
  id : Nat
  name : String
deriving DecidableEq, Repr

/-- One row of the `EXERCISE` table. -/
structure ExerciseRow where
  id : Nat
  category_id : Nat
  name : String
deriving DecidableEq, Repr

/-- One row of the `PLAYER_EXERCISE` table. -/
structure PlayerExerciseRow where
  id : Nat
  player_id : Nat
  exercise_id : Nat
  result : Option String
  rating : Option Int
deriving DecidableEq, Repr

/-- One row of the `PARENT_PLAYER` table. -/
structure ParentPlayerRow where
  id : Nat
  parent_id : Nat
  player_id : Nat
deriving DecidableEq, Repr

/-- The whole SQLite store: the eight tables in rowid order plus each
table's AUTOINCREMENT sequence. -/
structure DBState where
  player : List PlayerRow
  coach : List CoachRow
  parent : List ParentRow
  team : List TeamRow
  category : List CategoryRow
  exercise : List ExerciseRow
  player_exercise : List PlayerExerciseRow
  parent_player : List ParentPlayerRow
  seqPlayer : Nat
  seqCoach : Nat
  seqParent : Nat
  seqTeam : Nat
  seqCategory : Nat
  seqExercise : Nat
  seqPlayerExercise : Nat
  seqParentPlayer : Nat
deriving DecidableEq, Repr

/-- Error kinds raised by the operations.  In the Python source the first
three are `ValueError` with the given message, `integrityError` is
`sqlite3.IntegrityError`, and `typeError` is a Python `TypeError`. -/
inductive DBError where
  | invalidInput : String → DBError
  | notFound : String → DBError
  | conflict : String → DBError
  | integrityError : String → DBError
  | typeError : String → DBError
deriving DecidableEq, Repr

/-- A freshly created, still empty store (all sequences at 1). -/
def emptyDB : DBState :=
  ⟨[], [], [], [], [], [], [], [], 1, 1, 1, 1, 1, 1, 1, 1⟩

/-- The six seeded category names, in the order of the `categories` list in
`_initialize_database`. -/
def categoryNames : List String :=
  ["PAC", "SHO", "PAS", "DRI", "DEF", "PHY"]

/-- The seeded exercises per category, in the (insertion-ordered) iteration
order of the `exercises` dict in `_initialize_database`. -/
def exerciseSeed : List (String × List String) :=
  [("PAC", ["Sprint Speed", "Acceleration"]),
   ("SHO", ["Shot Speed (radar)", "Long Shots", "Free Kick Accuracy"]),
   ("PAS", ["Short Passing", "Long Passing", "Crossing"]),
   ("DRI", ["Zidane Fake Pass", "Stepovers", "Elastico"]),
   ("DEF", ["Tackling", "Marking", "Interceptions"]),
   ("PHY", ["Strength", "Stamina", "Jumping"])]

/-- `INSERT OR IGNORE INTO CATEGORY (name) VALUES (?)`: `CATEGORY.name` is
UNIQUE, so the row is inserted only when the name is new. -/
def insertCategory (s : DBState) (nm : String) : DBState :=
  if s.category.any (fun c => c.name == nm) then s
  else { s with category := s.category ++ [⟨s.seqCategory, nm⟩],
                seqCategory := s.seqCategory + 1 }

/-- `INSERT OR IGNORE INTO EXERCISE (category_id, name) VALUES (?, ?)`:
`EXERCISE` carries `UNIQUE(category_id, name)`, so the row is inserted only
when that pair is new. -/
def insertExercise (cid : Nat) (s : DBState) (nm : String) : DBState :=
  if s.exercise.any (fun e => e.category_id == cid && e.name == nm) then s
  else { s with exercise := s.exercise ++ [⟨s.seqExercise, cid, nm⟩],
                seqExercise := s.seqExercise + 1 }

/-- One iteration of the seeding loop of `_initialize_database`: look up the
category id by name (`fetchone()[0]` raises `TypeError` when the SELECT found
nothing) and insert-or-ignore each exercise of that category. -/
def seedCategoryExercises (s : DBState) (entry : String × List String) :
    Except DBError DBState :=
  match s.category.find? (fun c => c.name == entry.1) with
  | none => .error (.typeError "NoneType object is not subscriptable")
  | some c => .ok (entry.2.foldl (insertExercise c.id) s)

/-- `_initialize_database`: `CREATE TABLE IF NOT EXISTS` for the eight tables
(a no-op on the modelled state), then insert-or-ignore the six categories,
then for each category resolve its id and insert-or-ignore its exercises. -/
def init_database (s : DBState) : Except DBError DBState :=
  let s1 := categoryNames.foldl insertCategory s
  exerciseSeed.foldlM seedCategoryExercises s1

/-- The `PLAYER_EXERCISE` rows bulk-inserted by `add_user` for a new player:
one row per `EXERCISE` row (in table order), with `result` and `rating` left
NULL, consuming consecutive autoincrement ids starting at `k`. -/
def peBatch (uid : Nat) : Nat → List ExerciseRow → List PlayerExerciseRow
  | _, [] => []
  | k, e :: rest => ⟨k, uid, e.id, none, none⟩ :: peBatch uid (k + 1) rest

/-- `add_user`: role-dispatched insert.  `number` defaults to 0.  The INSERT
raises `IntegrityError` when the username or email already exists in that
role's table (UNIQUE columns); for a player the new id is then used to
prepopulate `PLAYER_EXERCISE` with one row per existing exercise.  Any other
role raises `ValueError("Invalid role provided")`. -/
def add_user (s : DBState) (username password email name : String)
    (birthYear : Int) (country : String) (role : String)
    (number : Option Int) (team_id : Option Nat) :
    Except DBError (DBState × Nat) :=
  let numberV : Int := match number with | some n => n | none => 0
  if role == "player" then
    if s.player.any (fun p => p.username == username || p.email == email) then
      .error (.integrityError "UNIQUE constraint failed: PLAYER")
    else
      let uid := s.seqPlayer
      let row : PlayerRow :=
        ⟨uid, username, password, email, name, none, birthYear, country,
         numberV, none, none, none, none, none, none, none, none, team_id⟩
      .ok ({ s with
              player := s.player ++ [row],
              seqPlayer := uid + 1,
              player_exercise :=
                s.player_exercise ++ peBatch uid s.seqPlayerExercise s.exercise,
              seqPlayerExercise := s.seqPlayerExercise + s.exercise.length },
           uid)
  else if role == "coach" then
    if s.coach.any (fun c => c.username == username || c.email == email) then
      .error (.integrityError "UNIQUE constraint failed: COACH")
    else
      let uid := s.seqCoach
      let row : CoachRow :=
        ⟨uid, username, password, email, name, none, birthYear, country,
         none, team_id⟩
      .ok ({ s with coach := s.coach ++ [row], seqCoach := uid + 1 }, uid)
  else if role == "parent" then
    if s.parent.any (fun q => q.username == username || q.email == email) then
      .error (.integrityError "UNIQUE constraint failed: PARENT")
    else
      let uid := s.seqParent
      let row : ParentRow :=
        ⟨uid, username, password, email, name, none, birthYear, country,
         none, none⟩
      .ok ({ s with parent := s.parent ++ [row], seqParent := uid + 1 }, uid)
  else .error (.invalidInput "Invalid role provided")

/-- The record returned by `get_user_by_email`, tagged by the table it came
from. -/
inductive UserRecord where
  | player : PlayerRow → UserRecord
  | coach : CoachRow → UserRecord
  | parent : ParentRow → UserRecord
deriving DecidableEq, Repr

/-- `get_user_by_email`: probe `PLAYER`, then `COACH`, then `PARENT`,
returning the first matching row (the table's first row in rowid order)
paired with its role string; `(None, None)` when nothing matches. -/
def get_user_by_email (s : DBState) (email : String) :
    Option UserRecord × Option String :=
  match s.player.find? (fun p => p.email == email) with
  | some p => (some (.player p), some "player")
  | none =>
    match s.coach.find? (fun c => c.email == email) with
    | some c => (some (.coach c), some "coach")
    | none =>
      match s.parent.find? (fun q => q.email == email) with
      | some q => (some (.parent q), some "parent")
      | none => (none, none)

/-- `delete_user`: `DELETE FROM PLAYER WHERE id = ?`.  Foreign keys are not
enforced by the driver, so nothing cascades. -/
def delete_user (s : DBState) (i : Nat) : DBState :=
  { s with player := s.player.filter (fun p => !(p.id == i)) }

/-- `create_team`: raise on a duplicate team name, then on a coach that
already owns a team, else insert the new `TEAM` row. -/
def create_team (s : DBState) (team_name : String) (coach_id : Nat) :
    Except DBError DBState :=
  match s.team.find? (fun t => t.name == team_name) with
  | some _ => .error (.conflict "Team name already exists")
  | none =>
    match s.team.find? (fun t => t.coach_id == coach_id) with
    | some _ => .error (.conflict "Coach already has a team")
    | none =>
      .ok { s with team := s.team ++ [⟨s.seqTeam, team_name, coach_id⟩],
                   seqTeam := s.seqTeam + 1 }

/-- `get_team_by_coach`: first team of the coach, if any. -/
def get_team_by_coach (s : DBState) (coach_id : Nat) : Option String :=
  match s.team.find? (fun t => t.coach_id == coach_id) with
  | some t => some t.name
  | none => none

/-- `join_team`: resolve the team by name, then its coach by id (both raise
`ValueError` when missing), then update the player row with the team id and
the coach's denormalized name/email.  The UPDATE matches by player id; when
no player has that id it affects nothing and no error is raised. -/
def join_team (s : DBState) (team_name : String) (player_id : Nat) :
    Except DBError DBState :=
  match s.team.find? (fun t => t.name == team_name) with
  | none => .error (.notFound "Team not found")
  | some t =>
    match s.coach.find? (fun c => c.id == t.coach_id) with
    | none => .error (.notFound "Coach not found")
    | some c =>
      .ok { s with player := s.player.map (fun p =>
              if p.id == player_id then
                { p with team_id := some t.id, coach := some c.name,
                         coachEmail := some c.email }
              else p) }

/-- `link_child`: resolve the child player by username and the parent by id
(both raise `ValueError` when missing), write the denormalized child fields
onto the parent row and parent fields onto the player row, then
`INSERT OR IGNORE INTO PARENT_PLAYER`.  `PARENT_PLAYER` has no uniqueness
constraint on `(parent_id, player_id)`, so the insert is never ignored and
always appends a fresh row. -/
def link_child (s : DBState) (child_username : String) (parent_id : Nat) :
    Except DBError DBState :=
  match s.player.find? (fun p => p.username == child_username) with
  | none => .error (.notFound "Child not found")
  | some child =>
    match s.parent.find? (fun q => q.id == parent_id) with
    | none => .error (.notFound "Parent not found")
    | some par =>
      .ok { s with
        parent := s.parent.map (fun q =>
          if q.id == parent_id then
            { q with child_name := some child.name,
                     child_email := some child.email }
          else q),
        player := s.player.map (fun p =>
          if p.id == child.id then
            { p with parent := some par.name, parentEmail := some par.email }
          else p),
        parent_player :=
          s.parent_player ++ [⟨s.seqParentPlayer, parent_id, child.id⟩],
        seqParentPlayer := s.seqParentPlayer + 1 }

/-- The `data` dict taken by `update_exercise`. -/
structure UpdateData where
  exercise : Option String
  playerId : Option Nat
  result : Option String
  rating : Option Int
deriving DecidableEq, Repr

/-- The dict returned by `update_exercise`: either
`{"message": ...}` or the soft-failure `{"error": ...}`. -/
inductive UpdateOutcome where
  | message : String → UpdateOutcome
  | errorMsg : String → UpdateOutcome
deriving DecidableEq, Repr

/-- `result is not None and result != "N/A"` — the result is written only
when this holds. -/
def resultValid (result : Option String) : Bool :=
  match result with
  | some r => r != "N/A"
  | none => false

/-- `rating is not None and rating != 0` — the rating is written only when
this holds. -/
def ratingValid (rating : Option Int) : Bool :=
  match rating with
  | some v => v != 0
  | none => false

/-- The `CHECK (rating BETWEEN 1 AND 5)` table constraint; NULL passes. -/
def ratingOk (rating : Option Int) : Bool :=
  match rating with
  | some v => decide (1 ≤ v) && decide (v ≤ 5)
  | none => true

/-- The WHERE clause of the UPDATE in `update_exercise`:
`player_id = ? AND exercise_id = ?` with the caller's (possibly NULL)
`playerId`; a NULL parameter matches no row. -/
def peMatches (d : UpdateData) (eid : Nat) (pe : PlayerExerciseRow) : Bool :=
  d.playerId == some pe.player_id && pe.exercise_id == eid

/-- The SET clause of the UPDATE in `update_exercise`: each of `result` and
`rating` is written exactly when it passed its validity test. -/
def applyUpdate (d : UpdateData) (pe : PlayerExerciseRow) : PlayerExerciseRow :=
  { pe with
    result := if resultValid d.result then d.result else pe.result,
    rating := if ratingValid d.rating then d.rating else pe.rating }

/-- `update_exercise`.  Validation: `if not exercise_name` (None or the empty
string) raises; then at least one of a valid result or a valid rating is
required.  The exercise name is resolved to the first `EXERCISE` row with
that name (raise when none).  The UPDATE touches every `PLAYER_EXERCISE` row
matching `(playerId, exercise_id)`; writing an out-of-range rating to at
least one row violates the CHECK constraint, raising `IntegrityError` with
the statement rolled back.  Otherwise `cursor.rowcount` decides between the
success message and the soft-failure dict. -/
def update_exercise (s : DBState) (d : UpdateData) :
    Except DBError (DBState × UpdateOutcome) :=
  match d.exercise with
  | none => .error (.invalidInput "Exercise name is required")
  | some ename =>
    if ename == "" then
      .error (.invalidInput "Exercise name is required")
    else if !(resultValid d.result) && !(ratingValid d.rating) then
      .error (.invalidInput
        "At least one of result or rating must pass validation")
    else
      match s.exercise.find? (fun e => e.name == ename) with
      | none => .error (.notFound ("Exercise " ++ ename ++ " not found"))
      | some ex =>
        let rowcount := (s.player_exercise.filter (peMatches d ex.id)).length
        if ratingValid d.rating && !(ratingOk d.rating) && rowcount != 0 then
          .error (.integrityError
            "CHECK constraint failed: rating BETWEEN 1 AND 5")
        else
          let s' := { s with player_exercise :=
            s.player_exercise.map (fun pe =>
              if peMatches d ex.id pe then applyUpdate d pe else pe) }
          if rowcount != 0 then
            .ok (s', .message "Exercise updated successfully.")
          else
            .ok (s', .errorMsg "No matching exercise found for this player.")

/-- One row of the result set of the LEFT JOIN in
`get_categories_and_exercises_with_ratings`. -/
structure JoinRow where
  category : String
  exercise : String
  result : Option String
  rating : Option Int
deriving DecidableEq, Repr

/-- An entry of the returned per-category lists: the dict
`{"exercise": ..., "result": ..., "rating": ...}`. -/
structure ExEntry where
  exercise : String
  result : Option String
  rating : Option Int
deriving DecidableEq, Repr

/-- The result set of
`CATEGORY JOIN EXERCISE ON c.id = e.category_id
 LEFT JOIN PLAYER_EXERCISE ON e.id = pe.exercise_id AND pe.player_id = ?`:
every (category, exercise) pair appears, paired with each matching
`PLAYER_EXERCISE` row or with NULLs when the player has none. -/
def joinRows (s : DBState) (pid : Nat) : List JoinRow :=
  s.category.flatMap (fun c =>
    (s.exercise.filter (fun e => e.category_id == c.id)).flatMap (fun e =>
      let pes := s.player_exercise.filter (fun pe =>
        pe.exercise_id == e.id && pe.player_id == pid)
      if pes.isEmpty then [⟨c.name, e.name, none, none⟩]
      else pes.map (fun pe => ⟨c.name, e.name, pe.result, pe.rating⟩)))

/-- Python `x if x else None` on a fetched result string: the empty string is
falsy and is coerced to None. -/
def truthyOrNoneS (v : Option String) : Option String :=
  match v with
  | none => none
  | some x => if x == "" then none else some x

/-- Python `x if x else None` on a fetched rating: 0 is falsy and is coerced
to None. -/
def truthyOrNoneI (v : Option Int) : Option Int :=
  match v with
  | none => none
  | some x => if x == 0 then none else some x

/-- The grouping loop body: `category_data[category].append(...)` on a dict
that lists keys in first-insertion order. -/
def dictAppend (acc : List (String × List ExEntry)) (k : String) (v : ExEntry) :
    List (String × List ExEntry) :=
  match acc with
  | [] => [(k, [v])]
  | (k2, vs) :: rest =>
    if k2 == k then (k2, vs ++ [v]) :: rest
    else (k2, vs) :: dictAppend rest k v

/-- The coercion applied by the loop to one fetched row before grouping. -/
def coerceRow (r : JoinRow) : String × ExEntry :=
  (r.category, ⟨r.exercise, truthyOrNoneS r.result, truthyOrNoneI r.rating⟩)

/-- `get_categories_and_exercises_with_ratings`: run the join, coerce falsy
result/rating values to None, and group by category name. -/
def get_categories_and_exercises_with_ratings (s : DBState) (pid : Nat) :
    List (String × List ExEntry) :=
  (joinRows s pid).foldl
    (fun acc r => dictAppend acc (coerceRow r).1 (coerceRow r).2) []

/-- `update_user` issues `UPDATE {table} SET {field} = ? WHERE id = ?`
statements against the role's own table only, with caller-supplied field
names that are not validated; it therefore may rewrite the `PLAYER`, `COACH`
and `PARENT` tables but touches no other table and no autoincrement
sequence.  This relation over-approximates every outcome of such a call. -/
def UpdateUserShape (s s' : DBState) : Prop :=
  s'.team = s.team ∧ s'.category = s.category ∧ s'.exercise = s.exercise ∧
  s'.player_exercise = s.player_exercise ∧
  s'.parent_player = s.parent_player ∧
  s'.seqPlayer = s.seqPlayer ∧ s'.seqCoach = s.seqCoach ∧
  s'.seqParent = s.seqParent ∧ s'.seqTeam = s.seqTeam ∧
  s'.seqCategory = s.seqCategory ∧ s'.seqExercise = s.seqExercise ∧
  s'.seqPlayerExercise = s.seqPlayerExercise ∧
  s'.seqParentPlayer = s.seqParentPlayer

/-- One mutating public operation of the `Database` class, as a transition on
store states.  Failing calls roll back and leave the store unchanged, so
they need no transition.  Read-only operations change nothing. -/
inductive Step : DBState → DBState → Prop where
  | init : ∀ s s', init_database s = .ok s' → Step s s'
  | addUser : ∀ s s' u pw em nm byr co role num tid uid,
      add_user s u pw em nm byr co role num tid = .ok (s', uid) → Step s s'
  | updateUser : ∀ s s', UpdateUserShape s s' → Step s s'
  | deleteUser : ∀ s i, Step s (delete_user s i)
  | createTeam : ∀ s s' nm cid, create_team s nm cid = .ok s' → Step s s'
  | updateExercise : ∀ s s' d out,
      update_exercise s d = .ok (s', out) → Step s s'
  | joinTeam : ∀ s s' nm pid, join_team s nm pid = .ok s' → Step s s'
  | linkChild : ∀ s s' cu pid, link_child s cu pid = .ok s' → Step s s'

/-- States reachable from an empty store by the public operations. -/
def Reachable (s : DBState) : Prop :=
  Relation.ReflTransGen Step emptyDB s

/-- Every stored rating is NULL or in [1,5]. -/
def ratingInv (s : DBState) : Bool :=
  s.player_exercise.all (fun pe => ratingOk pe.rating)

/-- The store produced by a single `_initialize_database` run on an empty
store. -/
def seededDB : DBState :=
  (init_database emptyDB).toOption.getD emptyDB

/-- `initialize()` called `n` times in sequence, stopping at the first
raised error. -/
def iterInit : Nat → DBState → Except DBError DBState
  | 0, s => .ok s
  | n + 1, s =>
    match init_database s with
    | .ok s' => iterInit n s'
    | .error e => .error e

/-! ### Decidability support -/

instance {ε α : Type} [DecidableEq ε] [DecidableEq α] :
    DecidableEq (Except ε α) := fun a b =>
  match a, b with
  | .ok x, .ok y =>
    if h : x = y then .isTrue (by rw [h])
    else .isFalse (fun hc => by cases hc; exact h rfl)
  | .error x, .error y =>
    if h : x = y then .isTrue (by rw [h])
    else .isFalse (fun hc => by cases hc; exact h rfl)
  | .ok _, .error _ => .isFalse (fun hc => by cases hc)
  | .error _, .ok _ => .isFalse (fun hc => by cases hc)

/-! ### Lemmas about the bulk insert of `PLAYER_EXERCISE` rows -/

theorem peBatch_length (uid : Nat) :
    ∀ (k : Nat) (l : List ExerciseRow), (peBatch uid k l).length = l.length := by
  intro k l
  induction l generalizing k with
  | nil => rfl
  | cons e rest ih => simp [peBatch, ih]

theorem peBatch_mem (uid : Nat) :
    ∀ (k : Nat) (l : List ExerciseRow) (pe : PlayerExerciseRow),
      pe ∈ peBatch uid k l →
      pe.player_id = uid ∧ pe.result = none ∧ pe.rating = none ∧
      pe.exercise_id ∈ l.map (fun e => e.id) := by
  intro k l
  induction l generalizing k with
  | nil => intro pe hpe; cases hpe
  | cons e rest ih =>
    intro pe hpe
    rcases List.mem_cons.mp hpe with h | h
    · subst h
      refine ⟨rfl, rfl, rfl, ?_⟩
      simp
    · rcases ih (k + 1) pe h with ⟨h1, h2, h3, h4⟩
      exact ⟨h1, h2, h3, by simp [h4]⟩

theorem peBatch_filter_count (uid x : Nat) :
    ∀ (k : Nat) (l : List ExerciseRow),
      ((peBatch uid k l).filter
        (fun pe => pe.player_id == uid && pe.exercise_id == x)).length
        = (l.map (fun e => e.id)).count x := by
  intro k l
  induction l generalizing k with
  | nil => rfl
  | cons e rest ih =>
    by_cases hx : e.id = x
    · subst hx
      simp [peBatch, List.filter_cons, List.count_cons, ih (k + 1)]
    · have hb : (e.id == x) = false := by simp [hx]
      simp [peBatch, List.filter_cons, List.count_cons, hb, hx, ih (k + 1)]

/-! ### Case lemmas for `add_user` -/

theorem add_user_player_ok {s s' : DBState} {u pw em nm co : String}
    {byr : Int} {num : Option Int} {tid : Option Nat} {uid : Nat}
    (h : add_user s u pw em nm byr co "player" num tid = .ok (s', uid)) :
    uid = s.seqPlayer ∧
    s'.player_exercise =
      s.player_exercise ++ peBatch s.seqPlayer s.seqPlayerExercise s.exercise ∧
    s'.exercise = s.exercise ∧
    s'.seqPlayer = s.seqPlayer + 1 ∧
    s'.seqExercise = s.seqExercise ∧
    s'.seqPlayerExercise = s.seqPlayerExercise + s.exercise.length := by
  unfold add_user at h
  simp only [beq_self_eq_true, if_true] at h
  split at h
  · simp at h
  · rw [Except.ok.injEq, Prod.mk.injEq] at h
    obtain ⟨hs, huid⟩ := h
    subst hs
    exact ⟨huid.symm, by simp, rfl, rfl, rfl, rfl⟩

theorem add_user_nonplayer_ok {s s' : DBState} {u pw em nm co role : String}
    {byr : Int} {num : Option Int} {tid : Option Nat} {uid : Nat}
    (hrole : (role == "player") = false)
    (h : add_user s u pw em nm byr co role num tid = .ok (s', uid)) :
    s'.player_exercise = s.player_exercise ∧
    s'.exercise = s.exercise ∧
    s'.seqPlayer = s.seqPlayer ∧
    s'.seqExercise = s.seqExercise ∧
    s'.seqPlayerExercise = s.seqPlayerExercise := by
  unfold add_user at h
  rw [hrole] at h
  simp only [Bool.false_eq_true, if_false] at h
  split at h
  · split at h
    · simp at h
    · rw [Except.ok.injEq, Prod.mk.injEq] at h
      obtain ⟨hs, _⟩ := h
      subst hs
      exact ⟨rfl, rfl, rfl, rfl, rfl⟩
  · split at h
    · split at h
      · simp at h
      · rw [Except.ok.injEq, Prod.mk.injEq] at h
        obtain ⟨hs, _⟩ := h
        subst hs
        exact ⟨rfl, rfl, rfl, rfl, rfl⟩
    · simp at h

/-! ### Case lemma for `update_exercise` -/

theorem update_exercise_ok {s s' : DBState} {d : UpdateData}
    {out : UpdateOutcome}
    (h : update_exercise s d = .ok (s', out)) :
    ∃ ename ex,
      d.exercise = some ename ∧ (ename == "") = false ∧
      (resultValid d.result || ratingValid d.rating) = true ∧
      s.exercise.find? (fun e => e.name == ename) = some ex ∧
      (ratingValid d.rating = true →
        ratingOk d.rating = true ∨
        (s.player_exercise.filter (peMatches d ex.id)).length = 0) ∧
      s'.player = s.player ∧ s'.coach = s.coach ∧ s'.parent = s.parent ∧
      s'.team = s.team ∧ s'.category = s.category ∧
      s'.exercise = s.exercise ∧ s'.parent_player = s.parent_player ∧
      s'.seqPlayer = s.seqPlayer ∧ s'.seqExercise = s.seqExercise ∧
      s'.seqPlayerExercise = s.seqPlayerExercise ∧
      s'.player_exercise = s.player_exercise.map (fun pe =>
        if peMatches d ex.id pe then applyUpdate d pe else pe) ∧
      (out = .message "Exercise updated successfully." ↔
        (s.player_exercise.filter (peMatches d ex.id)).length ≠ 0) ∧
      (out = .errorMsg "No matching exercise found for this player." ↔
        (s.player_exercise.filter (peMatches d ex.id)).length = 0) := by
  unfold update_exercise at h
  split at h
  · simp at h
  · rename_i ename hd
    refine ⟨ename, ?_⟩
    split at h
    · simp at h
    · rename_i hne
      split at h
      · simp at h
      · rename_i hvalid
        split at h
        · simp at h
        · rename_i ex hex
          dsimp only at h
          refine ⟨ex, hd, by simpa using hne, ?_, hex, ?_, ?_⟩
          · rcases hr : resultValid d.result with _ | _ <;>
              rcases hg : ratingValid d.rating with _ | _ <;>
              simp [hr, hg] at hvalid ⊢
          · intro hrv
            split at h
            · simp at h
            · rename_i hcond
              by_cases hok : ratingOk d.rating = true
              · exact Or.inl hok
              · right
                by_contra hne0
                apply hcond
                simp only [Bool.not_eq_true] at hok
                rw [hrv, hok]
                simp only [Bool.not_false, Bool.true_and, bne_iff_ne, ne_eq,
                  decide_not, decide_eq_true_eq]
                exact hne0
          · split at h
            · simp at h
            · split at h
              · rename_i hcount
                rw [Except.ok.injEq, Prod.mk.injEq] at h
                obtain ⟨hs, hout⟩ := h
                subst hs
                refine ⟨rfl, rfl, rfl, rfl, rfl, rfl, rfl, rfl, rfl, rfl,
                  rfl, ?_, ?_⟩
                · simp only [← hout]
                  simpa using hcount
                · simp only [← hout]
                  constructor
                  · intro hmsg
                    cases hmsg
                  · intro hzero
                    simp [hzero] at hcount
              · rename_i hcount
                rw [Except.ok.injEq, Prod.mk.injEq] at h
                obtain ⟨hs, hout⟩ := h
                subst hs
                have hzero :
                    (List.filter (peMatches d ex.id) s.player_exercise).length
                      = 0 := by
                  simpa using hcount
                refine ⟨rfl, rfl, rfl, rfl, rfl, rfl, rfl, rfl, rfl, rfl,
                  rfl, ?_, ?_⟩
                · simp only [← hout]
                  constructor
                  · intro hmsg
                    cases hmsg
                  · intro hne0
                    exact absurd hzero hne0
                · simp only [← hout]
                  simp [hzero]

/-! ### Frame and invariant lemmas for the schema bootstrap -/

/-- Structural invariant of the `EXERCISE` table: every id is below the
autoincrement sequence and ids are pairwise distinct. -/
def ExInv (s : DBState) : Prop :=
  (∀ e ∈ s.exercise, e.id < s.seqExercise) ∧
  (s.exercise.map (fun e => e.id)).Nodup

theorem insertCategory_frame (s : DBState) (nm : String) :
    (insertCategory s nm).exercise = s.exercise ∧
    (insertCategory s nm).player_exercise = s.player_exercise ∧
    (insertCategory s nm).seqPlayer = s.seqPlayer ∧
    (insertCategory s nm).seqExercise = s.seqExercise := by
  unfold insertCategory
  split <;> exact ⟨rfl, rfl, rfl, rfl⟩

theorem foldl_insertCategory_frame (l : List String) :
    ∀ s : DBState,
      (l.foldl insertCategory s).exercise = s.exercise ∧
      (l.foldl insertCategory s).player_exercise = s.player_exercise ∧
      (l.foldl insertCategory s).seqPlayer = s.seqPlayer ∧
      (l.foldl insertCategory s).seqExercise = s.seqExercise := by
  induction l with
  | nil => intro s; exact ⟨rfl, rfl, rfl, rfl⟩
  | cons a rest ih =>
    intro s
    obtain ⟨h1, h2, h3, h4⟩ := ih (insertCategory s a)
    obtain ⟨g1, g2, g3, g4⟩ := insertCategory_frame s a
    exact ⟨h1.trans g1, h2.trans g2, h3.trans g3, h4.trans g4⟩

theorem insertExercise_frame (cid : Nat) (s : DBState) (nm : String) :
    (insertExercise cid s nm).player_exercise = s.player_exercise ∧
    (insertExercise cid s nm).seqPlayer = s.seqPlayer := by
  unfold insertExercise
  split <;> exact ⟨rfl, rfl⟩

theorem insertExercise_exInv (cid : Nat) (s : DBState) (nm : String)
    (h : ExInv s) : ExInv (insertExercise cid s nm) := by
  obtain ⟨hlt, hnd⟩ := h
  unfold insertExercise
  split
  · exact ⟨hlt, hnd⟩
  · constructor
    · intro e he
      rcases List.mem_append.mp he with h1 | h1
      · exact Nat.lt_succ_of_lt (hlt e h1)
      · rcases List.mem_singleton.mp h1 with rfl
        exact Nat.lt_succ_self _
    · rw [List.map_append, List.nodup_append]
      refine ⟨hnd, List.nodup_singleton _, ?_⟩
      intro a ha hb
      obtain ⟨e, he, hei⟩ := List.mem_map.mp ha
      have h2 : a = s.seqExercise := by simpa using hb
      have h1 : e.id < s.seqExercise := hlt e he
      have h3 : e.id = a := hei
      omega

theorem foldl_insertExercise_exInv (cid : Nat) (l : List String) :
    ∀ s : DBState, ExInv s → ExInv (l.foldl (insertExercise cid) s) ∧ True := by
  induction l with
  | nil => intro s h; exact ⟨h, trivial⟩
  | cons a rest ih =>
    intro s h
    exact ⟨(ih (insertExercise cid s a) (insertExercise_exInv cid s a h)).1,
      trivial⟩

theorem foldl_insertExercise_frame (cid : Nat) (l : List String) :
    ∀ s : DBState,
      (l.foldl (insertExercise cid) s).player_exercise = s.player_exercise ∧
      (l.foldl (insertExercise cid) s).seqPlayer = s.seqPlayer := by
  induction l with
  | nil => intro s; exact ⟨rfl, rfl⟩
  | cons a rest ih =>
    intro s
    obtain ⟨h1, h2⟩ := ih (insertExercise cid s a)
    obtain ⟨g1, g2⟩ := insertExercise_frame cid s a
    exact ⟨h1.trans g1, h2.trans g2⟩

theorem seedCategoryExercises_ok {s s' : DBState} {entry : String × List String}
    (h : seedCategoryExercises s entry = .ok s') :
    (ExInv s → ExInv s') ∧
    s'.player_exercise = s.player_exercise ∧
    s'.seqPlayer = s.seqPlayer := by
  unfold seedCategoryExercises at h
  split at h
  · simp at h
  · rename_i c hc
    rw [Except.ok.injEq] at h
    subst h
    obtain ⟨h1, h2⟩ := foldl_insertExercise_frame c.id entry.2 s
    exact ⟨fun hinv => (foldl_insertExercise_exInv c.id entry.2 s hinv).1,
      h1, h2⟩

theorem foldlM_seed_ok (l : List (String × List String)) :
    ∀ s s' : DBState, l.foldlM seedCategoryExercises s = .ok s' →
      (ExInv s → ExInv s') ∧
      s'.player_exercise = s.player_exercise ∧
      s'.seqPlayer = s.seqPlayer := by
  induction l with
  | nil =>
    intro s s' h
    rw [List.foldlM_nil] at h
    have h2 : (Except.ok s : Except DBError DBState) = .ok s' := h
    rw [Except.ok.injEq] at h2
    subst h2
    exact ⟨fun hv => hv, rfl, rfl⟩
  | cons a rest ih =>
    intro s s' h
    rw [List.foldlM_cons] at h
    cases hstep : seedCategoryExercises s a with
    | error e =>
      rw [hstep] at h
      have h2 : (Except.error e : Except DBError DBState) = .ok s' := h
      cases h2
    | ok s1 =>
      rw [hstep] at h
      have h2 : rest.foldlM seedCategoryExercises s1 = .ok s' := h
      obtain ⟨k1, k2, k3⟩ := ih s1 s' h2
      obtain ⟨g1, g2, g3⟩ := seedCategoryExercises_ok hstep
      exact ⟨fun hv => k1 (g1 hv), k2.trans g2, k3.trans g3⟩

theorem init_database_ok {s s' : DBState}
    (h : init_database s = .ok s') :
    (ExInv s → ExInv s') ∧
    s'.player_exercise = s.player_exercise ∧
    s'.seqPlayer = s.seqPlayer := by
  unfold init_database at h
  obtain ⟨k1, k2, k3⟩ := foldlM_seed_ok exerciseSeed _ _ h
  obtain ⟨g1, g2, g3, g4⟩ := foldl_insertCategory_frame categoryNames s
  refine ⟨?_, k2.trans g2, k3.trans g3⟩
  intro hinv
  apply k1
  unfold ExInv
  rw [g1, g4]
  exact hinv

/-! ### Frame lemmas for the remaining operations -/

theorem create_team_ok_frame {s s' : DBState} {nm : String} {cid : Nat}
    (h : create_team s nm cid = .ok s') :
    s'.player_exercise = s.player_exercise ∧ s'.exercise = s.exercise ∧
    s'.seqPlayer = s.seqPlayer ∧ s'.seqExercise = s.seqExercise := by
  unfold create_team at h
  split at h
  · simp at h
  · split at h
    · simp at h
    · rw [Except.ok.injEq] at h
      subst h
      exact ⟨rfl, rfl, rfl, rfl⟩

theorem join_team_ok_frame {s s' : DBState} {nm : String} {pid : Nat}
    (h : join_team s nm pid = .ok s') :
    s'.player_exercise = s.player_exercise ∧ s'.exercise = s.exercise ∧
    s'.seqPlayer = s.seqPlayer ∧ s'.seqExercise = s.seqExercise := by
  unfold join_team at h
  split at h
  · simp at h
  · split at h
    · simp at h
    · rw [Except.ok.injEq] at h
      subst h
      exact ⟨rfl, rfl, rfl, rfl⟩

theorem link_child_ok_frame {s s' : DBState} {cu : String} {pid : Nat}
    (h : link_child s cu pid = .ok s') :
    s'.player_exercise = s.player_exercise ∧ s'.exercise = s.exercise ∧
    s'.seqPlayer = s.seqPlayer ∧ s'.seqExercise = s.seqExercise := by
  unfold link_child at h
  split at h
  · simp at h
  · split at h
    · simp at h
    · rw [Except.ok.injEq] at h
      subst h
      exact ⟨rfl, rfl, rfl, rfl⟩

/-! ### The reachable-state invariant -/

/-- Structural invariant maintained by every public operation:
`PLAYER_EXERCISE` rows reference player ids below the player sequence, the
`EXERCISE` table is well-formed, distinct `PLAYER_EXERCISE` rows carry
distinct (player, exercise) pairs, and every stored rating is NULL or in
[1,5]. -/
structure DBInv (s : DBState) : Prop where
  pe_player_lt : ∀ pe ∈ s.player_exercise, pe.player_id < s.seqPlayer
  exInv : ExInv s
  pe_pairs_nodup :
    (s.player_exercise.map (fun pe => (pe.player_id, pe.exercise_id))).Nodup
  rating_inv : ratingInv s = true

theorem peBatch_pairs (uid : Nat) :
    ∀ (k : Nat) (l : List ExerciseRow),
      (peBatch uid k l).map (fun pe => (pe.player_id, pe.exercise_id))
        = (l.map (fun e => e.id)).map (fun i => (uid, i)) := by
  intro k l
  induction l generalizing k with
  | nil => rfl
  | cons e rest ih => simp [peBatch, ih (k + 1)]

theorem inv_empty : DBInv emptyDB := by
  refine ⟨?_, ⟨?_, ?_⟩, ?_, ?_⟩ <;> simp [emptyDB, ratingInv, ExInv]

theorem inv_add_user {s s' : DBState} {u pw em nm co role : String}
    {byr : Int} {num : Option Int} {tid : Option Nat} {uid : Nat}
    (h : add_user s u pw em nm byr co role num tid = .ok (s', uid))
    (hinv : DBInv s) : DBInv s' := by
  by_cases hrole : (role == "player") = true
  · have hrole2 : role = "player" := eq_of_beq hrole
    subst hrole2
    obtain ⟨huid, hpe, hex, hseq, hseqE, hseqPE⟩ := add_user_player_ok h
    subst huid
    constructor
    · rw [hpe, hseq]
      intro pe hpe2
      rcases List.mem_append.mp hpe2 with h1 | h1
      · exact Nat.lt_succ_of_lt (hinv.pe_player_lt pe h1)
      · rw [(peBatch_mem _ _ _ pe h1).1]
        exact Nat.lt_succ_self _
    · obtain ⟨hlt, hnd⟩ := hinv.exInv
      exact ⟨by rw [hex, hseqE]; exact hlt, by rw [hex]; exact hnd⟩
    · rw [hpe, List.map_append, List.nodup_append, peBatch_pairs]
      refine ⟨hinv.pe_pairs_nodup, ?_, ?_⟩
      · apply List.Nodup.map
        · intro a b hab
          exact (Prod.mk.injEq _ _ _ _).mp hab |>.2
        · exact hinv.exInv.2
      · intro p hp hq
        obtain ⟨pe, hpe2, hpe3⟩ := List.mem_map.mp hp
        obtain ⟨i, _, hi⟩ := List.mem_map.mp hq
        have hlt := hinv.pe_player_lt pe hpe2
        have : p.1 = pe.player_id := by rw [← hpe3]
        have : p.1 = s.seqPlayer := by rw [← hi]
        omega
    · unfold ratingInv
      rw [hpe, List.all_append]
      have h1 : ratingInv s = true := hinv.rating_inv
      unfold ratingInv at h1
      rw [h1]
      rw [Bool.true_and, List.all_eq_true]
      intro pe hpe2
      rw [(peBatch_mem _ _ _ pe hpe2).2.2.1]
      rfl
  · have hfalse : (role == "player") = false := by
      rcases hb : (role == "player") with _ | _
      · rfl
      · exact absurd hb hrole
    obtain ⟨hpe, hex, hseq, hseqE, _⟩ := add_user_nonplayer_ok hfalse h
    constructor
    · rw [hpe, hseq]; exact hinv.pe_player_lt
    · obtain ⟨hlt, hnd⟩ := hinv.exInv
      exact ⟨by rw [hex, hseqE]; exact hlt, by rw [hex]; exact hnd⟩
    · rw [hpe]; exact hinv.pe_pairs_nodup
    · unfold ratingInv
      rw [hpe]
      exact hinv.rating_inv

theorem inv_update_exercise {s s' : DBState} {d : UpdateData}
    {out : UpdateOutcome}
    (h : update_exercise s d = .ok (s', out)) (hinv : DBInv s) : DBInv s' := by
  obtain ⟨ename, ex, _, _, _, _, hcheck, _, _, _, _, _, hex, _, hseq, hseqE,
    _, hpe, _, _⟩ := update_exercise_ok h
  have hproj : ∀ pe : PlayerExerciseRow,
      (if peMatches d ex.id pe then applyUpdate d pe else pe).player_id
        = pe.player_id ∧
      (if peMatches d ex.id pe then applyUpdate d pe else pe).exercise_id
        = pe.exercise_id := by
    intro pe
    by_cases hm : peMatches d ex.id pe = true
    · rw [if_pos hm]; exact ⟨rfl, rfl⟩
    · rw [if_neg hm]; exact ⟨rfl, rfl⟩
  constructor
  · intro pe hpe2
    rw [hpe] at hpe2
    rw [hseq]
    obtain ⟨pe0, hpe0, hpe0e⟩ := List.mem_map.mp hpe2
    have h1 := hinv.pe_player_lt pe0 hpe0
    have h2 := (hproj pe0).1
    rw [hpe0e] at h2
    omega
  · obtain ⟨hlt, hnd⟩ := hinv.exInv
    exact ⟨by rw [hex, hseqE]; exact hlt, by rw [hex]; exact hnd⟩
  · rw [hpe, List.map_map]
    have heq : ((fun pe : PlayerExerciseRow => (pe.player_id, pe.exercise_id))
        ∘ (fun pe => if peMatches d ex.id pe then applyUpdate d pe else pe))
        = fun pe : PlayerExerciseRow => (pe.player_id, pe.exercise_id) := by
      funext pe
      have := hproj pe
      simp only [Function.comp_apply]
      rw [this.1, this.2]
    rw [heq]
    exact hinv.pe_pairs_nodup
  · unfold ratingInv
    rw [hpe, List.all_eq_true]
    intro pe hpe2
    obtain ⟨pe0, hpe0, hpe0e⟩ := List.mem_map.mp hpe2
    have hok0 : ratingOk pe0.rating = true := by
      have h1 : ratingInv s = true := hinv.rating_inv
      unfold ratingInv at h1
      rw [List.all_eq_true] at h1
      exact h1 pe0 hpe0
    by_cases hm : peMatches d ex.id pe0 = true
    · rw [if_pos hm] at hpe0e
      by_cases hrv : ratingValid d.rating = true
      · rcases hcheck hrv with hgood | hzero
        · rw [← hpe0e]
          unfold applyUpdate
          rw [if_pos hrv]
          exact hgood
        · exfalso
          rw [List.length_eq_zero, List.filter_eq_nil_iff] at hzero
          exact hzero pe0 hpe0 hm
      · have hrvf : ratingValid d.rating = false := by
          rcases hb : ratingValid d.rating with _ | _
          · rfl
          · exact absurd hb hrv
        rw [← hpe0e]
        unfold applyUpdate
        rw [hrvf]
        simpa using hok0
    · rw [if_neg hm] at hpe0e
      rw [← hpe0e]
      exact hok0

theorem inv_step {s s' : DBState} (h : Step s s') (hinv : DBInv s) : DBInv s' := by
  cases h with
  | init _ hok =>
    obtain ⟨hexi, hpe, hseq⟩ := init_database_ok hok
    constructor
    · rw [hpe, hseq]; exact hinv.pe_player_lt
    · exact hexi hinv.exInv
    · rw [hpe]; exact hinv.pe_pairs_nodup
    · unfold ratingInv; rw [hpe]; exact hinv.rating_inv
  | addUser _ u pw em nm byr co role num tid uid hok =>
    exact inv_add_user hok hinv
  | updateUser _ hshape =>
    obtain ⟨_, _, hex, hpe, _, hseq, _, _, _, _, hseqE, _, _⟩ := hshape
    constructor
    · rw [hpe, hseq]; exact hinv.pe_player_lt
    · obtain ⟨hlt, hnd⟩ := hinv.exInv
      exact ⟨by rw [hex, hseqE]; exact hlt, by rw [hex]; exact hnd⟩
    · rw [hpe]; exact hinv.pe_pairs_nodup
    · unfold ratingInv; rw [hpe]; exact hinv.rating_inv
  | deleteUser i =>
    constructor
    · exact hinv.pe_player_lt
    · exact hinv.exInv
    · exact hinv.pe_pairs_nodup
    · exact hinv.rating_inv
  | createTeam _ nm cid hok =>
    obtain ⟨hpe, hex, hseq, hseqE⟩ := create_team_ok_frame hok
    constructor
    · rw [hpe, hseq]; exact hinv.pe_player_lt
    · obtain ⟨hlt, hnd⟩ := hinv.exInv
      exact ⟨by rw [hex, hseqE]; exact hlt, by rw [hex]; exact hnd⟩
    · rw [hpe]; exact hinv.pe_pairs_nodup
    · unfold ratingInv; rw [hpe]; exact hinv.rating_inv
  | updateExercise _ d out hok =>
    exact inv_update_exercise hok hinv
  | joinTeam _ nm pid hok =>
    obtain ⟨hpe, hex, hseq, hseqE⟩ := join_team_ok_frame hok
    constructor
    · rw [hpe, hseq]; exact hinv.pe_player_lt
    · obtain ⟨hlt, hnd⟩ := hinv.exInv
      exact ⟨by rw [hex, hseqE]; exact hlt, by rw [hex]; exact hnd⟩
    · rw [hpe]; exact hinv.pe_pairs_nodup
    · unfold ratingInv; rw [hpe]; exact hinv.rating_inv
  | linkChild _ cu pid hok =>
    obtain ⟨hpe, hex, hseq, hseqE⟩ := link_child_ok_frame hok
    constructor
    · rw [hpe, hseq]; exact hinv.pe_player_lt
    · obtain ⟨hlt, hnd⟩ := hinv.exInv
      exact ⟨by rw [hex, hseqE]; exact hlt, by rw [hex]; exact hnd⟩
    · rw [hpe]; exact hinv.pe_pairs_nodup
    · unfold ratingInv; rw [hpe]; exact hinv.rating_inv

theorem reachable_inv {s : DBState} (h : Reachable s) : DBInv s := by
  unfold Reachable at h
  induction h with
  | refl => exact inv_empty
  | tail _ hstep ih => exact inv_step hstep ih

/-! ### Concrete runs used by the claims -/

theorem init_emptyDB_eq : init_database emptyDB = .ok seededDB := by decide

theorem init_seededDB_fix : init_database seededDB = .ok seededDB := by decide

theorem iterInit_seeded_fix : ∀ m : Nat, iterInit m seededDB = .ok seededDB := by
  intro m
  induction m with
  | zero => rfl
  | succ k ih =>
    rw [iterInit, init_seededDB_fix]
    exact ih

/-- C3: schema bootstrap is idempotent: calling `initialize()` any positive
number of times in sequence from an empty store raises no error and produces
the same state as calling it once, with exactly the 6 seeded categories
(PAC, SHO, PAS, DRI, DEF, PHY) and exactly 17 exercises. -/
theorem init_database_idempotent (n : Nat) (h : 1 ≤ n) :
    iterInit n emptyDB = .ok seededDB ∧
    seededDB.category.map (fun c => c.name) = categoryNames ∧
    seededDB.category.length = 6 ∧
    seededDB.exercise.length = 17 := by
  cases n with
  | zero => omega
  | succ m =>
    refine ⟨?_, by decide, by decide, by decide⟩
    rw [iterInit, init_emptyDB_eq]
    exact iterInit_seeded_fix m

/-- Witness for C3 at n = 2. -/
theorem init_database_idempotent_witness :
    iterInit 2 emptyDB = .ok seededDB :=
  (init_database_idempotent 2 (by decide)).1

/-- The C1 scenario: seed the schema, register the player "kid" and the
parent "mom", then call `link_child` twice with the same pair and count the
`PARENT_PLAYER` rows carrying that (parent_id, player_id). -/
def c1Run : Except DBError Nat := do
  let s1 ← init_database emptyDB
  let p1 ← add_user s1 "kid" "pw" "kid@example.com" "Kid" 2010 "FI" "player"
    none none
  let p2 ← add_user p1.1 "mom" "pw" "mom@example.com" "Mom" 1980 "FI" "parent"
    none none
  let s4 ← link_child p2.1 "kid" p2.2
  let s5 ← link_child s4 "kid" p2.2
  pure ((s5.parent_player.filter
    (fun r => r.parent_id == p2.2 && r.player_id == p1.2)).length)

/-- C1: both `link_child` calls succeed (the repeat raises no error), but the
join table then holds TWO rows for the pair, not one: `PARENT_PLAYER` has no
uniqueness constraint on (parent_id, player_id), so the source's
`INSERT OR IGNORE` never ignores a duplicate. -/
theorem link_child_twice_inserts_duplicate : c1Run = .ok 2 := by decide

/-! ### C6: probe order of `get_user_by_email` -/

/-- C6: `get_user_by_email` probes PLAYER, COACH, PARENT in that fixed
order and returns the first match with its role: a player match wins no
matter what the coach/parent tables hold; a coach match is returned only
when no player matched; a parent match only when neither did; and with no
match anywhere the result is `(none, none)` with no error. -/
theorem get_user_by_email_probe_order (s : DBState) (em : String) :
    (∀ p, s.player.find? (fun r => r.email == em) = some p →
      get_user_by_email s em = (some (.player p), some "player")) ∧
    (s.player.find? (fun r => r.email == em) = none →
      ∀ c, s.coach.find? (fun r => r.email == em) = some c →
        get_user_by_email s em = (some (.coach c), some "coach")) ∧
    (s.player.find? (fun r => r.email == em) = none →
      s.coach.find? (fun r => r.email == em) = none →
      ∀ q, s.parent.find? (fun r => r.email == em) = some q →
        get_user_by_email s em = (some (.parent q), some "parent")) ∧
    (s.player.find? (fun r => r.email == em) = none →
      s.coach.find? (fun r => r.email == em) = none →
      s.parent.find? (fun r => r.email == em) = none →
      get_user_by_email s em = (none, none)) := by
  refine ⟨?_, ?_, ?_, ?_⟩
  · intro p hp
    unfold get_user_by_email
    rw [hp]
  · intro hp c hc
    unfold get_user_by_email
    rw [hp, hc]
  · intro hp hc q hq
    unfold get_user_by_email
    rw [hp, hc, hq]
  · intro hp hc hq
    unfold get_user_by_email
    rw [hp, hc, hq]

/-- A store whose three user tables all contain the email `dup@x.com`. -/
def w6state : DBState :=
  { emptyDB with
    player := [⟨1, "p", "pw", "dup@x.com", "P", none, 2000, "FI", 0, none,
      none, none, none, none, none, none, none, none⟩],
    coach := [⟨1, "c", "pw", "dup@x.com", "C", none, 1990, "FI", none, none⟩],
    parent := [⟨1, "q", "pw", "dup@x.com", "Q", none, 1980, "FI", none,
      none⟩] }

/-- Witness for C6: with `dup@x.com` present in all three tables, the player
row is returned with role "player". -/
theorem get_user_by_email_probe_order_witness :
    get_user_by_email w6state "dup@x.com" =
      (some (.player ⟨1, "p", "pw", "dup@x.com", "P", none, 2000, "FI", 0,
        none, none, none, none, none, none, none, none, none⟩),
       some "player") :=
  (get_user_by_email_probe_order w6state "dup@x.com").1 _ (by decide)

/-! ### C7: `create_team` conflicts -/

/-- C7: `create_team` raises Conflict when a team with the name exists,
raises Conflict when the coach already owns a team, and otherwise inserts
exactly one new TEAM row carrying the name and the coach reference.  A
raised error models the Python exception with the transaction rolled back,
so on either Conflict the store is unchanged. -/
theorem create_team_conflicts (s : DBState) (nm : String) (cid : Nat) :
    (∀ t, s.team.find? (fun r => r.name == nm) = some t →
      create_team s nm cid = .error (.conflict "Team name already exists")) ∧
    (s.team.find? (fun r => r.name == nm) = none →
      ∀ t, s.team.find? (fun r => r.coach_id == cid) = some t →
        create_team s nm cid = .error (.conflict "Coach already has a team")) ∧
    (s.team.find? (fun r => r.name == nm) = none →
      s.team.find? (fun r => r.coach_id == cid) = none →
      create_team s nm cid =
        .ok { s with team := s.team ++ [⟨s.seqTeam, nm, cid⟩],
                     seqTeam := s.seqTeam + 1 }) := by
  refine ⟨?_, ?_, ?_⟩
  · intro t ht
    unfold create_team
    rw [ht]
  · intro hn t hc
    unfold create_team
    rw [hn, hc]
  · intro hn hc
    unfold create_team
    rw [hn, hc]

/-- A store holding the team "T" owned by coach 1. -/
def w7state : DBState :=
  { emptyDB with team := [⟨1, "T", 1⟩], seqTeam := 2 }

/-- Witness for C7: creating a second team named "T" raises Conflict. -/
theorem create_team_conflicts_witness :
    create_team w7state "T" 2 = .error (.conflict "Team name already exists") :=
  (create_team_conflicts w7state "T" 2).1 ⟨1, "T", 1⟩ (by decide)

/-! ### C9: `join_team` with a missing player is silent -/

/-- C9: when the team and its coach both resolve but no PLAYER row has the
given id, `join_team` returns normally and leaves the store unchanged (the
UPDATE matches no row, and the source raises nothing for that case) —
unlike a missing team or a missing coach, which raise NotFound. -/
theorem join_team_missing_player_silent (s : DBState) (tname : String)
    (pid : Nat) (t : TeamRow) (c : CoachRow)
    (ht : s.team.find? (fun r => r.name == tname) = some t)
    (hc : s.coach.find? (fun r => r.id == t.coach_id) = some c)
    (hp : ∀ p ∈ s.player, p.id ≠ pid) :
    join_team s tname pid = .ok s ∧
    (∀ s2 : DBState, s2.team.find? (fun r => r.name == tname) = none →
      join_team s2 tname pid = .error (.notFound "Team not found")) ∧
    (∀ (s2 : DBState) (t2 : TeamRow),
      s2.team.find? (fun r => r.name == tname) = some t2 →
      s2.coach.find? (fun r => r.id == t2.coach_id) = none →
      join_team s2 tname pid = .error (.notFound "Coach not found")) := by
  refine ⟨?_, ?_, ?_⟩
  · simp only [join_team, ht, hc]
    have hmap : s.player.map (fun p =>
        if p.id == pid then
          { p with team_id := some t.id, coach := some c.name,
                   coachEmail := some c.email }
        else p) = s.player := by
      have hcong : ∀ p ∈ s.player, (fun p : PlayerRow =>
          if p.id == pid then
            { p with team_id := some t.id, coach := some c.name,
                     coachEmail := some c.email }
          else p) p = id p := by
        intro p hp2
        have : (p.id == pid) = false := by
          simpa using hp p hp2
        simp only [this, Bool.false_eq_true, if_false, id]
      rw [List.map_congr_left hcong, List.map_id]
    rw [hmap]
  · intro s2 h2
    simp only [join_team, h2]
  · intro s2 t2 h2 h3
    simp only [join_team, h2, h3]

/-- A store holding the team "T" with its coach but no players at all. -/
def w9state : DBState :=
  { emptyDB with
    team := [⟨1, "T", 1⟩],
    coach := [⟨1, "c", "pw", "c@x.com", "C", none, 1990, "FI", none, none⟩] }

/-- Witness for C9: joining "T" with the absent player id 5 returns the
store unchanged and raises nothing. -/
theorem join_team_missing_player_silent_witness :
    join_team w9state "T" 5 = .ok w9state :=
  (join_team_missing_player_silent w9state "T" 5 ⟨1, "T", 1⟩
    ⟨1, "c", "pw", "c@x.com", "C", none, 1990, "FI", none, none⟩
    (by decide) (by decide) (by decide)).1

/-! ### C8: reachable states keep ratings in range -/

/-- C8: in every state reachable from an empty store by the public
operations, every `PLAYER_EXERCISE` rating is NULL or an integer in [1,5];
in particular a successful `update_exercise` keeps it that way (a call that
would write an out-of-range rating to a matching row raises IntegrityError
with the statement rolled back, so it cannot commit such a rating). -/
theorem reachable_rating_range {s : DBState} (h : Reachable s) :
    ratingInv s = true ∧
    ∀ (d : UpdateData) (s' : DBState) (out : UpdateOutcome),
      update_exercise s d = .ok (s', out) → ratingInv s' = true := by
  refine ⟨(reachable_inv h).rating_inv, ?_⟩
  intro d s' out hok
  exact (inv_update_exercise hok (reachable_inv h)).rating_inv

/-- Witness for C8 at the seeded store (one `initialize()` step from the
empty store). -/
theorem reachable_rating_range_witness : ratingInv seededDB = true :=
  (reachable_rating_range
    (Relation.ReflTransGen.single (Step.init _ _ init_emptyDB_eq))).1

/-! ### C2: row-count indicators of `update_exercise` -/

theorem nodup_all_eq_length_le_one {α : Type} {m : List α} {k : α}
    (hnd : m.Nodup) (hall : ∀ x ∈ m, x = k) : m.length ≤ 1 := by
  match m with
  | [] => simp
  | [a] => simp
  | a :: b :: rest =>
    exfalso
    have ha : a = k := hall a (by simp)
    have hb : b = k := hall b (by simp)
    rw [List.nodup_cons] at hnd
    exact hnd.1 (by rw [ha, hb]; simp)

/-- In a state whose (player, exercise) pairs are pairwise distinct, the
UPDATE of `update_exercise` can match at most one row. -/
theorem matched_le_one {s : DBState}
    (hnd : (s.player_exercise.map
      (fun pe => (pe.player_id, pe.exercise_id))).Nodup)
    (d : UpdateData) (eid : Nat) :
    (s.player_exercise.filter (peMatches d eid)).length ≤ 1 := by
  cases hpid : d.playerId with
  | none =>
    have : s.player_exercise.filter (peMatches d eid) = [] := by
      rw [List.filter_eq_nil_iff]
      intro pe _
      unfold peMatches
      rw [hpid]
      simp
    rw [this]
    simp
  | some pid =>
    have hsub : List.Sublist
        ((s.player_exercise.filter (peMatches d eid)).map
          (fun pe => (pe.player_id, pe.exercise_id)))
        (s.player_exercise.map (fun pe => (pe.player_id, pe.exercise_id))) :=
      List.Sublist.map _ (List.filter_sublist _)
    have hnd2 := hsub.nodup hnd
    have hall : ∀ x ∈ (s.player_exercise.filter (peMatches d eid)).map
        (fun pe => (pe.player_id, pe.exercise_id)), x = (pid, eid) := by
      intro x hx
      obtain ⟨pe, hpe, hpex⟩ := List.mem_map.mp hx
      have hm := List.of_mem_filter hpe
      unfold peMatches at hm
      rw [hpid] at hm
      rw [Bool.and_eq_true] at hm
      obtain ⟨h1, h2⟩ := hm
      have h1e : pid = pe.player_id := by simpa using h1
      have h2e : pe.exercise_id = eid := by simpa using h2
      rw [← hpex, ← h1e, h2e]
    have := nodup_all_eq_length_le_one hnd2 hall
    rwa [List.length_map] at this

/-- C2: for a call to `update_exercise` from a reachable state that passes
validation and resolves the exercise name, a normal return carries the
success message exactly when exactly one `PLAYER_EXERCISE` row matched
(playerId, exerciseId), and carries the no-match dict (a returned value,
not a raised error) exactly when zero rows matched. -/
theorem update_exercise_rowcount_indicator {s : DBState}
    (hreach : Reachable s) (d : UpdateData) (ename : String)
    (ex : ExerciseRow) (hname : d.exercise = some ename)
    (hex : s.exercise.find? (fun e => e.name == ename) = some ex) :
    ∀ (s' : DBState) (out : UpdateOutcome),
      update_exercise s d = .ok (s', out) →
      ((out = .message "Exercise updated successfully." ↔
        (s.player_exercise.filter (peMatches d ex.id)).length = 1) ∧
       ((s.player_exercise.filter (peMatches d ex.id)).length = 0 ↔
        out = .errorMsg "No matching exercise found for this player.")) := by
  intro s' out hok
  obtain ⟨ename2, ex2, hname2, _, _, hex2, _, _, _, _, _, _, _, _, _, _,
    _, _, hiff1, hiff2⟩ := update_exercise_ok hok
  rw [hname] at hname2
  injection hname2 with hen
  subst hen
  rw [hex] at hex2
  injection hex2 with hexeq
  subst hexeq
  have hle := matched_le_one (reachable_inv hreach).pe_pairs_nodup d ex.id
  constructor
  · rw [hiff1]
    omega
  · constructor
    · intro hzero
      rw [hiff2]
      exact hzero
    · intro hmsg
      exact hiff2.mp hmsg

/-! ### Concrete reachable stores for witnesses -/

/-- The store after seeding and registering the player "kid" (id 1). -/
def c2state : DBState :=
  ((add_user seededDB "kid" "pw" "kid@x.com" "Kid" 2010 "FI" "player"
    none none).toOption.getD (emptyDB, 0)).1

theorem c2state_add :
    add_user seededDB "kid" "pw" "kid@x.com" "Kid" 2010 "FI" "player"
      none none = .ok (c2state, 1) := by decide

theorem c2state_reachable : Reachable c2state :=
  Relation.ReflTransGen.tail
    (Relation.ReflTransGen.single (Step.init _ _ init_emptyDB_eq))
    (Step.addUser _ _ _ _ _ _ _ _ _ _ _ _ c2state_add)

/-- A rating-only update of "Stepovers" for player 1. -/
def c2data : UpdateData := ⟨some "Stepovers", some 1, none, some 3⟩

def c2res : DBState × UpdateOutcome :=
  (update_exercise c2state c2data).toOption.getD (emptyDB, .errorMsg "")

theorem c2res_ok :
    update_exercise c2state c2data = .ok (c2res.1, c2res.2) := by decide

/-- Witness for C2: the rating-only update of "Stepovers" for the one
registered player matches exactly one row and returns the success dict. -/
theorem update_exercise_rowcount_indicator_witness :
    c2res.2 = .message "Exercise updated successfully." :=
  ((update_exercise_rowcount_indicator c2state_reachable c2data "Stepovers"
    ⟨10, 4, "Stepovers"⟩ rfl (by decide)) c2res.1 c2res.2 c2res_ok).1.mpr
    (by decide)

/-! ### C4: player registration prepopulates `PLAYER_EXERCISE` -/

/-- C4: from any reachable store, a successful `add_user` with role
"player" leaves exactly one `PLAYER_EXERCISE` row per `EXERCISE` row that
existed at registration time, all linked to the new player id with result
and rating NULL; a successful `add_user` with role "coach" or "parent"
creates no `PLAYER_EXERCISE` row. -/
theorem add_user_player_prepopulates {s : DBState} (hreach : Reachable s)
    (u pw em nm co : String) (byr : Int) (num : Option Int)
    (tid : Option Nat) :
    (∀ (s' : DBState) (uid : Nat),
      add_user s u pw em nm byr co "player" num tid = .ok (s', uid) →
      ((s'.player_exercise.filter (fun pe => pe.player_id == uid)).length
          = s.exercise.length ∧
        (∀ e ∈ s.exercise,
          (s'.player_exercise.filter (fun pe =>
            pe.player_id == uid && pe.exercise_id == e.id)).length = 1) ∧
        (∀ pe ∈ s'.player_exercise, pe.player_id = uid →
          pe.result = none ∧ pe.rating = none))) ∧
    (∀ role : String, role = "coach" ∨ role = "parent" →
      ∀ (s' : DBState) (uid : Nat),
        add_user s u pw em nm byr co role num tid = .ok (s', uid) →
        s'.player_exercise = s.player_exercise) := by
  constructor
  · intro s' uid hok
    obtain ⟨huid, hpe, hex, hseq, _, _⟩ := add_user_player_ok hok
    subst huid
    have hold : ∀ pe ∈ s.player_exercise,
        (pe.player_id == s.seqPlayer) = false := by
      intro pe hp
      have := (reachable_inv hreach).pe_player_lt pe hp
      simp only [beq_eq_false_iff_ne, ne_eq]
      omega
    refine ⟨?_, ?_, ?_⟩
    · rw [hpe, List.filter_append]
      have h1 : s.player_exercise.filter
          (fun pe => pe.player_id == s.seqPlayer) = [] := by
        rw [List.filter_eq_nil_iff]
        intro pe hp
        simp [hold pe hp]
      have h2 : (peBatch s.seqPlayer s.seqPlayerExercise s.exercise).filter
          (fun pe => pe.player_id == s.seqPlayer)
          = peBatch s.seqPlayer s.seqPlayerExercise s.exercise := by
        rw [List.filter_eq_self]
        intro pe hp
        rw [(peBatch_mem _ _ _ pe hp).1]
        simp
      rw [h1, h2, List.nil_append, peBatch_length]
    · intro e he
      rw [hpe, List.filter_append]
      have h1 : s.player_exercise.filter (fun pe =>
          pe.player_id == s.seqPlayer && pe.exercise_id == e.id) = [] := by
        rw [List.filter_eq_nil_iff]
        intro pe hp
        simp [hold pe hp]
      rw [h1, List.nil_append, peBatch_filter_count]
      exact List.count_eq_one_of_mem (reachable_inv hreach).exInv.2
        (List.mem_map_of_mem (fun e => e.id) he)
    · intro pe hp hpid
      rw [hpe] at hp
      rcases List.mem_append.mp hp with h1 | h1
      · exfalso
        have := hold pe h1
        rw [hpid] at this
        simp at this
      · obtain ⟨_, h2, h3, _⟩ := peBatch_mem _ _ _ pe h1
        exact ⟨h2, h3⟩
  · intro role hrole s' uid hok
    have hfalse : (role == "player") = false := by
      rcases hrole with h | h <;> subst h <;> rfl
    exact (add_user_nonplayer_ok hfalse hok).1

def c4res : DBState × Nat :=
  (add_user seededDB "ana" "pw" "ana@x.com" "Ana" 2012 "ES" "player"
    none none).toOption.getD (emptyDB, 0)

theorem c4res_ok :
    add_user seededDB "ana" "pw" "ana@x.com" "Ana" 2012 "ES" "player"
      none none = .ok (c4res.1, c4res.2) := by decide

/-- Witness for C4: registering "ana" on the seeded store creates as many
`PLAYER_EXERCISE` rows for her id as there are exercises. -/
theorem add_user_player_prepopulates_witness :
    (c4res.1.player_exercise.filter
      (fun pe => pe.player_id == c4res.2)).length
      = seededDB.exercise.length :=
  ((add_user_player_prepopulates
    (Relation.ReflTransGen.single (Step.init _ _ init_emptyDB_eq))
    "ana" "pw" "ana@x.com" "Ana" "ES" 2012 none none).1
    c4res.1 c4res.2 c4res_ok).1

/-! ### C5: validation of `update_exercise` (corrected) -/

/-- The input refuting C5 as stated: the exercise name is present (the
empty string, not absent) and the rating 3 is valid. -/
def c5bad : UpdateData := ⟨some "", some 1, none, some 3⟩

/-- Counterexample to C5 as stated: with exercise name "" (present, not
absent) and the valid rating 3, the claim's condition for InvalidInput does
not hold, yet the source's falsy check `if not exercise_name` raises
InvalidInput. -/
theorem update_exercise_empty_name_counterexample :
    update_exercise seededDB c5bad
      = .error (.invalidInput "Exercise name is required") ∧
    c5bad.exercise ≠ none ∧ ratingValid c5bad.rating = true :=
  ⟨by decide, by decide, by decide⟩

/-- C5 amended: `update_exercise` fails with InvalidInput exactly when the
exercise name is absent or the empty string, or when both the result is
invalid (absent or "N/A") and the rating is invalid (absent or 0);
otherwise a normal return touches only the supplied valid fields: with no
valid result the result column of every row is unchanged, and with no
valid rating the rating column of every row is unchanged (so a rating-only
call updates only the rating column). -/
theorem update_exercise_validation_amended (s : DBState) (d : UpdateData) :
    ((∃ m, update_exercise s d = .error (.invalidInput m)) ↔
      (d.exercise = none ∨ d.exercise = some "" ∨
        (resultValid d.result = false ∧ ratingValid d.rating = false))) ∧
    (∀ (s' : DBState) (out : UpdateOutcome),
      update_exercise s d = .ok (s', out) →
      (resultValid d.result = false →
        s'.player_exercise.map (fun pe => pe.result)
          = s.player_exercise.map (fun pe => pe.result)) ∧
      (ratingValid d.rating = false →
        s'.player_exercise.map (fun pe => pe.rating)
          = s.player_exercise.map (fun pe => pe.rating))) := by
  constructor
  · constructor
    · rintro ⟨m, hm⟩
      unfold update_exercise at hm
      split at hm
      · rename_i hd
        exact Or.inl hd
      · rename_i ename hd
        split at hm
        · rename_i hne
          refine Or.inr (Or.inl ?_)
          rw [hd, eq_of_beq hne]
        · rename_i hne
          split at hm
          · rename_i hv
            refine Or.inr (Or.inr ?_)
            rw [Bool.and_eq_true] at hv
            obtain ⟨h1, h2⟩ := hv
            exact ⟨by simpa using h1, by simpa using h2⟩
          · split at hm
            · simp at hm
            · rename_i ex hex
              dsimp only at hm
              split at hm
              · simp at hm
              · split at hm <;> simp at hm
    · intro hcond
      rcases hcond with h1 | h2 | h3
      · refine ⟨"Exercise name is required", ?_⟩
        unfold update_exercise
        rw [h1]
      · refine ⟨"Exercise name is required", ?_⟩
        unfold update_exercise
        rw [h2]
        rfl
      · obtain ⟨hr, hg⟩ := h3
        rcases hd : d.exercise with _ | ename
        · refine ⟨"Exercise name is required", ?_⟩
          unfold update_exercise
          rw [hd]
        · by_cases hne : (ename == "") = true
          · refine ⟨"Exercise name is required", ?_⟩
            unfold update_exercise
            rw [hd]
            simp [hne]
          · refine ⟨"At least one of result or rating must pass validation",
              ?_⟩
            unfold update_exercise
            rw [hd]
            have hnef : (ename == "") = false := by
              rcases hb : (ename == "") with _ | _
              · rfl
              · exact absurd hb hne
            simp [hnef, hr, hg]
  · intro s' out hok
    obtain ⟨ename, ex, _, _, _, _, _, _, _, _, _, _, _, _, _, _, _, hpe,
      _, _⟩ := update_exercise_ok hok
    constructor
    · intro hr
      rw [hpe, List.map_map]
      refine List.map_congr_left ?_
      intro pe _
      simp only [Function.comp_apply]
      by_cases hmatch : peMatches d ex.id pe = true
      · rw [if_pos hmatch]
        simp [applyUpdate, hr]
      · rw [if_neg (by simp [hmatch])]
    · intro hg
      rw [hpe, List.map_map]
      refine List.map_congr_left ?_
      intro pe _
      simp only [Function.comp_apply]
      by_cases hmatch : peMatches d ex.id pe = true
      · rw [if_pos hmatch]
        simp [applyUpdate, hg]
      · rw [if_neg (by simp [hmatch])]

/-- Witness for C5 (amended): the rating-only update of "Stepovers"
returned normally and left the result column of every row unchanged. -/
theorem update_exercise_validation_amended_witness :
    resultValid c2data.result = false ∧
    c2res.1.player_exercise.map (fun pe => pe.result)
      = c2state.player_exercise.map (fun pe => pe.result) :=
  ⟨by decide, ((update_exercise_validation_amended c2state c2data).2
    c2res.1 c2res.2 c2res_ok).1 (by decide)⟩

/-! ### C10: falsy coercion in the ratings query -/

/-- Decidable check that the grouped query result lists entry `v` under
category key `k`. -/
def entryInB (out : List (String × List ExEntry)) (k : String)
    (v : ExEntry) : Bool :=
  out.any (fun p => p.1 == k && p.2.any (fun x => x == v))

theorem entryInB_dictAppend (acc : List (String × List ExEntry))
    (k1 : String) (v1 : ExEntry) (k : String) (v : ExEntry) :
    entryInB (dictAppend acc k1 v1) k v = true ↔
    (entryInB acc k v = true ∨ (k = k1 ∧ v = v1)) := by
  induction acc with
  | nil =>
    simp only [dictAppend, entryInB, List.any_cons, List.any_nil,
      Bool.or_false]
    rw [Bool.and_eq_true, beq_iff_eq, beq_iff_eq]
    constructor
    · rintro ⟨h1, h2⟩
      exact Or.inr ⟨h1.symm, h2.symm⟩
    · rintro (h | ⟨h1, h2⟩)
      · simp at h
      · exact ⟨h1.symm, h2.symm⟩
  | cons hd rest ih =>
    obtain ⟨k3, vs3⟩ := hd
    by_cases hk : (k3 == k1) = true
    · have hk3 : k3 = k1 := eq_of_beq hk
      subst hk3
      simp only [dictAppend, hk, if_true, entryInB, List.any_cons]
      rw [Bool.or_eq_true, Bool.or_eq_true]
      constructor
      · rintro (h | h)
        · rw [Bool.and_eq_true] at h
          obtain ⟨h1, h2⟩ := h
          rw [List.any_append, Bool.or_eq_true] at h2
          rcases h2 with h2 | h2
          · refine Or.inl (Or.inl ?_)
            rw [Bool.and_eq_true]
            exact ⟨h1, h2⟩
          · simp only [List.any_cons, List.any_nil, Bool.or_false] at h2
            exact Or.inr ⟨(eq_of_beq h1).symm, (eq_of_beq h2).symm⟩
        · exact Or.inl (Or.inr h)
      · rintro ((h | h) | ⟨hke, hve⟩)
        · rw [Bool.and_eq_true] at h
          obtain ⟨h1, h2⟩ := h
          refine Or.inl ?_
          rw [Bool.and_eq_true]
          refine ⟨h1, ?_⟩
          rw [List.any_append, Bool.or_eq_true]
          exact Or.inl h2
        · exact Or.inr h
        · subst hke
          subst hve
          refine Or.inl ?_
          rw [Bool.and_eq_true]
          refine ⟨by simp, ?_⟩
          rw [List.any_append, Bool.or_eq_true]
          right
          simp
    · have hkf : (k3 == k1) = false := by
        rcases hb : (k3 == k1) with _ | _
        · rfl
        · exact absurd hb hk
      simp only [dictAppend, hkf, Bool.false_eq_true, if_false, entryInB,
        List.any_cons]
      simp only [entryInB] at ih
      rw [Bool.or_eq_true, Bool.or_eq_true, ih]
      tauto

theorem entryInB_foldl (k : String) (v : ExEntry) (rows : List JoinRow) :
    ∀ acc : List (String × List ExEntry),
      entryInB (rows.foldl (fun a r =>
        dictAppend a (coerceRow r).1 (coerceRow r).2) acc) k v = true ↔
      (entryInB acc k v = true ∨ ∃ r ∈ rows, coerceRow r = (k, v)) := by
  induction rows with
  | nil => simp
  | cons r rest ih =>
    intro acc
    rw [List.foldl_cons, ih, entryInB_dictAppend]
    constructor
    · intro h
      rcases h with (h | h) | h
      · exact Or.inl h
      · refine Or.inr ⟨r, by simp, ?_⟩
        obtain ⟨h1, h2⟩ := h
        rw [Prod.ext_iff]
        exact ⟨h1.symm, h2.symm⟩
      · obtain ⟨r2, hr2, hr2e⟩ := h
        exact Or.inr ⟨r2, by simp [hr2], hr2e⟩
    · intro h
      rcases h with h | ⟨r2, hr2, hr2e⟩
      · exact Or.inl (Or.inl h)
      · rcases List.mem_cons.mp hr2 with h3 | h3
        · subst h3
          rw [Prod.ext_iff] at hr2e
          exact Or.inl (Or.inr ⟨hr2e.1.symm, hr2e.2.symm⟩)
        · exact Or.inr ⟨r2, h3, hr2e⟩

/-- C10: the grouping loop coerces falsy fetched values with
`x if x else None`: a `PLAYER_EXERCISE` row holding the empty string as its
result is reported under its category with result absent (None), not as
the empty string. -/
theorem ratings_query_coerces_empty_result (s : DBState) (pid : Nat)
    (pe : PlayerExerciseRow) (e : ExerciseRow) (c : CategoryRow)
    (hpe : pe ∈ s.player_exercise) (hpid : pe.player_id = pid)
    (hres : pe.result = some "") (he : e ∈ s.exercise)
    (heid : pe.exercise_id = e.id) (hc : c ∈ s.category)
    (hcat : e.category_id = c.id) :
    entryInB (get_categories_and_exercises_with_ratings s pid) c.name
      ⟨e.name, none, truthyOrNoneI pe.rating⟩ = true := by
  unfold get_categories_and_exercises_with_ratings
  rw [entryInB_foldl]
  right
  refine ⟨⟨c.name, e.name, pe.result, pe.rating⟩, ?_, ?_⟩
  · unfold joinRows
    rw [List.mem_flatMap]
    refine ⟨c, hc, ?_⟩
    rw [List.mem_flatMap]
    refine ⟨e, ?_, ?_⟩
    · rw [List.mem_filter]
      exact ⟨he, by simp [hcat]⟩
    · have hpes : pe ∈ s.player_exercise.filter
          (fun pe2 => pe2.exercise_id == e.id && pe2.player_id == pid) := by
        rw [List.mem_filter]
        refine ⟨hpe, ?_⟩
        simp [heid, hpid]
      have hne : (s.player_exercise.filter
          (fun pe2 => pe2.exercise_id == e.id && pe2.player_id == pid)).isEmpty
          = false := by
        rcases hb : (s.player_exercise.filter
          (fun pe2 => pe2.exercise_id == e.id && pe2.player_id == pid)).isEmpty
          with _ | _
        · exact hb
        · rw [List.isEmpty_iff] at hb
          rw [hb] at hpes
          cases hpes
      simp only [hne, Bool.false_eq_true, if_false]
      rw [List.mem_map]
      exact ⟨pe, hpes, rfl⟩
  · unfold coerceRow
    rw [hres]
    rfl

/-- The store after writing the empty string as the result of
"Sprint Speed" for player 1 (the empty string passes the source's result
validation since it differs from "N/A"). -/
def c10state : DBState :=
  ((update_exercise c2state
    ⟨some "Sprint Speed", some 1, some "", none⟩).toOption.getD
    (emptyDB, .errorMsg "")).1

/-- Witness for C10: the stored empty-string result of "Sprint Speed" is
reported under "PAC" with result absent. -/
theorem ratings_query_coerces_empty_result_witness :
    entryInB (get_categories_and_exercises_with_ratings c10state 1) "PAC"
      ⟨"Sprint Speed", none, none⟩ = true :=
  ratings_query_coerces_empty_result c10state 1 ⟨1, 1, 1, some "", none⟩
    ⟨1, 1, "Sprint Speed"⟩ ⟨1, "PAC"⟩ (by decide) rfl rfl (by decide) rfl
    (by decide) rfl
